import Mathlib

/-!
Shallow embedding of the interval-detection core of `analyse.py`
(wahoo-analysis).  Rows of the trace buffer are Python dicts that may or
may not carry a `power` / `timestamp` entry; fallible Python operations
(out-of-range indexing, `KeyError`, the failing `assert`, `None`
arithmetic) are modelled with `Option`.
-/

namespace Analyse

/-- One record row of the trace buffer.  The Python code stores rows as
dicts mapping field names to `(value, units)` pairs; only the `power` and
`timestamp` fields are read by the detection engine.  A `none` field models
a dict that lacks that key.  Timestamps are abstracted to integers. -/
structure Row where
  power : Option Int
  timestamp : Option Int
deriving DecidableEq

/-- Model of `PowerReading = namedtuple('PowerReading', 'time, power')` (analyse.py line 16). -/
structure PowerReading where
  time : Int
  power : Int
deriving DecidableEq

/-- Python list indexing `l[i]`: negative indices count from the end;
an index out of range raises (modelled as `none`). -/
def pyGet (l : List α) (i : Int) : Option α :=
  if 0 ≤ i then l.get? i.toNat
  else if 0 ≤ (l.length : Int) + i then l.get? ((l.length : Int) + i).toNat
  else none

/-- Clamped index arithmetic of a Python slice bound. -/
def pySliceIdx (len : Nat) (i : Int) : Nat :=
  if i < 0 then ((len : Int) + i).toNat else min i.toNat len

/-- Python slice `l[a:b]`. -/
def pySlice (l : List α) (a b : Int) : List α :=
  (l.take (pySliceIdx l.length b)).drop (pySliceIdx l.length a)

/-- Python `del l[:n]`, i.e. keep `l[n:]`. -/
def pyDropFront (l : List α) (n : Int) : List α :=
  if 0 ≤ n then l.drop n.toNat else l.drop ((l.length : Int) + n).toNat

/-- Python `range(a, b)` over integers, as a list of integers. -/
def pyRangeI (a b : Int) : List Int :=
  (List.range (b - a).toNat).map fun k : Nat => a + (k : Int)

/-- Python `range(a, b)` where the start is a known natural number
(indices produced by enumeration from 0). -/
def pyRangeNat (a : Nat) (b : Int) : List Nat :=
  List.range' a (b - (a : Int)).toNat

/-- Sequential effectful map in the `Option` monad: models a Python loop
over a list in which the body may raise; the first failure aborts. -/
def mapOpt (f : α → Option β) : List α → Option (List β)
  | [] => some []
  | a :: l => do
    let b ← f a
    let r ← mapOpt f l
    pure (b :: r)

/-- Python `max(iterable)`: fails on an empty iterable. -/
def maxList : List Int → Option Int
  | [] => none
  | x :: xs => some (xs.foldl max x)

/-- Model of `get_row_power` (analyse.py lines 52-53):
`data[i].get('power', (0, None))[0]`.  The dict lookup defaults to power 0
when the row lacks the key, but the list indexing `data[i]` itself raises
on an out-of-range index (modelled by `none`). -/
def get_row_power (data : List Row) (i : Int) : Option Int :=
  (pyGet data i).map fun r => r.power.getD 0

/-- Model of `get_row_timestamp` (analyse.py lines 56-57):
`data[i].get('timestamp', (0, None))[0]`. -/
def get_row_timestamp (data : List Row) (i : Int) : Option Int :=
  (pyGet data i).map fun r => r.timestamp.getD 0

/-- Total power lookup used where the caller has already clamped the index
into range (`find_effort_interval` clamps `end_i` to `len(data)`, so the
out-of-range fallback 0 is never reached there); agrees with
`get_row_power` on in-range indices (`get_row_power_eq_rowPowerD`). -/
def rowPowerD (data : List Row) (i : Nat) : Int :=
  (get_row_power data (i : Int)).getD 0

/-- Model of `sum_power_range` (analyse.py lines 83-87): sums `row['power'][0]`
over the slice `data[start:start+durn]`; a row without the `power` key
raises `KeyError` (modelled by `none`). -/
def sum_power_range (data : List Row) (start durn : Int) : Option Int :=
  (mapOpt (fun r => r.power) (pySlice data start (start + durn))).map
    fun ps => ps.foldl (· + ·) 0

/-- Loop body of `find_max_power_range`: state is
`(max_total_power, start_of_best_range)`, initially `(0, None)`; the
comparison is strict `>`, so ties keep the earlier offset. -/
def find_max_power_range_go (data : List Row) (durn : Int) :
    List Nat → Int × Option Nat → Option (Int × Option Nat)
  | [], st => some st
  | j :: rest, st =>
    match sum_power_range data (j : Int) durn with
    | none => none
    | some t =>
      find_max_power_range_go data durn rest (if st.1 < t then (t, some j) else st)

/-- Model of `find_max_power_range` (analyse.py lines 90-98): scans candidate start
offsets `range(search_range)`, i.e. `0 .. search_range - 1`; returns
`None` (inner `none`) when no candidate achieves a strictly positive sum. -/
def find_max_power_range (data : List Row) (interval_durn search_range : Int) :
    Option (Option Nat) :=
  (find_max_power_range_go data interval_durn (List.range search_range.toNat)
    (0, none)).map (·.2)

/-- Check of one candidate offset inside `find_effort_interval`
(analyse.py lines 62-63): `end_i = min(len(data), start_i + interval_duration)`
clamps the window to the end of the buffer, then every sample of
`range(start_i, end_i)` must have power at least `interval_power`. -/
def effort_window_ok (data : List Row) (interval_power interval_duration : Int)
    (start_i : Nat) : Bool :=
  (pyRangeNat start_i (min (data.length : Int) ((start_i : Int) + interval_duration))).all
    fun i => decide (interval_power ≤ rowPowerD data i)

/-- Model of `find_effort_interval` (analyse.py lines 60-66): first matching offset
in `range(min(len(data), longest_recovery_duration))`; the failing
`assert False` at line 65 is modelled by `none`. -/
def find_effort_interval (data : List Row)
    (interval_power interval_duration longest_recovery_duration : Int) : Option Nat :=
  (List.range (min (data.length : Int) longest_recovery_duration).toNat).find?
    fun start_i => effort_window_ok data interval_power interval_duration start_i

/-- Model of `IntervalType = Enum('IntervalType', 'Effort, Recovery')` (analyse.py line 18). -/
inductive IntervalType where
  | Effort
  | Recovery
deriving DecidableEq

/-- Model of `IntervalDefinition` (analyse.py line 19): duration is a plain Python
int; the value `-1` is the AUTO sentinel used for implicit recovery
segments.  `unmerged_intervals` is a list of `(duration, name)`. -/
structure IntervalDefinition where
  duration : Int
  interval_type : IntervalType
  name : String
  unmerged_intervals : List (Int × String)
deriving DecidableEq

/-- Model of `SessionDefinition.intervals` (analyse.py lines 30-32). -/
abbrev SessionDefinition := List IntervalDefinition

/-- Model of `SessionDefinition.last_interval_type` (analyse.py lines 47-49):
`self.intervals[-1][1] if self.intervals else None`. -/
def last_interval_type (s : SessionDefinition) : Option IntervalType :=
  s.getLast?.map (·.interval_type)

/-- Name truncation in `add_interval` (analyse.py lines 39-40):
`if len(new_name) > 28: new_name = new_name[:25] + '...'`. -/
def truncate_name (n : String) : String :=
  if n.length > 28 then String.mk (n.data.take 25) ++ "..." else n

/-- Model of `SessionDefinition.add_interval` (analyse.py lines 34-45): when the new
segment's type equals the type of the current last entry, the two are
merged in place (durations added — including the `-1` AUTO sentinel —,
names joined with `/` and truncated, unmerged sub-parts concatenated);
otherwise the new segment is appended. -/
def add_interval (s : SessionDefinition) (duration : Int) (interval_type : IntervalType)
    (interval_name : String) : SessionDefinition :=
  match s.getLast? with
  | some last =>
    if last.interval_type = interval_type then
      s.dropLast ++ [{ duration := last.duration + duration
                       interval_type := interval_type
                       name := truncate_name (last.name ++ "/" ++ interval_name)
                       unmerged_intervals := last.unmerged_intervals ++ [(duration, interval_name)] }]
    else
      s ++ [{ duration := duration, interval_type := interval_type,
              name := interval_name, unmerged_intervals := [(duration, interval_name)] }]
  | none =>
    s ++ [{ duration := duration, interval_type := interval_type,
            name := interval_name, unmerged_intervals := [(duration, interval_name)] }]

/-- Python `str.strip()` for whitespace (both ends). -/
def pyStrip (cs : List Char) : List Char :=
  ((cs.dropWhile Char.isWhitespace).reverse.dropWhile Char.isWhitespace).reverse

/-- Model of `int(s)` on a string of decimal digits. -/
def digitsToNat (cs : List Char) : Nat :=
  cs.foldl (fun acc c => acc * 10 + (c.toNat - '0'.toNat)) 0

/-- Loop body of `parse_durn` (analyse.py lines 297-317); `fuel` bounds the
number of iterations (each iteration consumes at least one character, so
`cs.length + 1` fuel always suffices). -/
def parse_durn_go (fuel : Nat) (cs : List Char) (acc : Int) : Option Int :=
  match fuel with
  | 0 => none
  | fuel + 1 =>
    match cs with
    | [] => some acc
    | _ :: _ =>
      let s := pyStrip cs
      match s with
      | [] => none
      | c :: _ =>
        if c.isDigit then
          let ds := s.takeWhile Char.isDigit
          match s.dropWhile Char.isDigit with
          | [] => none
          | u :: rest =>
            let chunk : Int := digitsToNat ds
            if u = 'm' then parse_durn_go fuel rest (acc + chunk * 60)
            else if u = 's' then parse_durn_go fuel rest (acc + chunk)
            else none
        else none

/-- Model of `parse_durn` (analyse.py lines 283-317): parses strings such as
`"1m30s"` into seconds; returns `none` where Python returns `None`. -/
def parse_durn (durn : String) : Option Int :=
  parse_durn_go (durn.length + 1) durn.data 0

/-- Body of one repetition in `parse_reps` (analyse.py lines 337-345):
state is `(session so far, next interval number)`.  An implicit AUTO
recovery placeholder is appended first whenever the current last segment
type is not `Recovery` — including before an effort that follows another
effort. -/
def parse_reps_add_rep (st : SessionDefinition × Nat) (interval_type : IntervalType)
    (durn : Int) : SessionDefinition × Nat :=
  let sd := if last_interval_type st.1 ≠ some IntervalType.Recovery then
              add_interval st.1 (-1) IntervalType.Recovery "Recovery"
            else st.1
  match interval_type with
  | IntervalType.Recovery => (add_interval sd durn IntervalType.Recovery "Recovery", st.2)
  | IntervalType.Effort =>
    (add_interval sd durn IntervalType.Effort ("Interval " ++ toString st.2), st.2 + 1)

/-- Processing of one element of the reps list (analyse.py lines 323-345):
leading `-` marks a recovery; an optional `NxDUR` prefix repeats; the
duration is parsed by `parse_durn`.  An invalid reps count raises
(modelled `none`); a duration that fails to parse would flow into
`add_interval` as `None` and crash downstream arithmetic, which we also
surface as `none` here. -/
def parse_reps_one (st : SessionDefinition × Nat) (reps : String) :
    Option (SessionDefinition × Nat) :=
  match reps.data with
  | [] => none
  | c :: cs =>
    let (body, interval_type) :=
      if c = '-' then (cs, IntervalType.Recovery) else (c :: cs, IntervalType.Effort)
    let nd : Option (Nat × List Char) :=
      if body.contains 'x' then
        let nstr := body.takeWhile (· ≠ 'x')
        let dstr := (body.dropWhile (· ≠ 'x')).drop 1
        if nstr ≠ [] ∧ nstr.all Char.isDigit then some (digitsToNat nstr, dstr) else none
      else
        some (1, body)
    match nd with
    | none => none
    | some (n, dstr) =>
      match parse_durn (String.mk dstr) with
      | none => none
      | some durn =>
        some ((List.range n).foldl (fun st _ => parse_reps_add_rep st interval_type durn) st)

/-- Model of `parse_reps` (analyse.py lines 320-346). -/
def parse_reps (reps_list : List String) : Option SessionDefinition :=
  (reps_list.foldlM parse_reps_one (([] : SessionDefinition), 1)).map (·.1)

/-- Model of `Interval` (analyse.py line 23).  The field named `end` in the source
is called `stop` here (`end` is a Lean keyword).  The `avg_power` field
(`total_power / durn`, Python float division) is presentation-only data
and is not modelled. -/
structure Interval where
  name : String
  start : Int
  stop : Int
  max_power : Int
  power_readings : List PowerReading
deriving DecidableEq

/-- The `power_readings` list comprehension in `find_intervals.add_interval`
(analyse.py lines 142-143): one `PowerReading(timestamp, power)` per index
of `range(start, end)`; an out-of-range index raises. -/
def interval_power_readings (data : List Row) (start stop : Int) :
    Option (List PowerReading) :=
  mapOpt (fun i => do
      let t ← get_row_timestamp data i
      let p ← get_row_power data i
      pure (PowerReading.mk t p))
    (pyRangeI start stop)

/-- The inner `add_interval` closure of `find_intervals` (analyse.py lines
137-151): builds one result `Interval` for the window
`[start, start + durn)`.  Failure (`none`) models the exceptions the
closure can raise: `KeyError` from `sum_power_range`, `IndexError` from an
out-of-range sample lookup, and `ValueError` from `max()` on an empty
window. -/
def mk_interval (data : List Row) (start durn : Int) (name : String) :
    Option Interval := do
  let stop := start + durn
  let _total ← sum_power_range data start durn
  let powers ← mapOpt (fun i => get_row_power data i) (pyRangeI start stop)
  let maxP ← maxList powers
  let readings ← interval_power_readings data start stop
  let st ← get_row_timestamp data start
  let en ← get_row_timestamp data (stop - 1)
  pure { name := name, start := st, stop := en, max_power := maxP,
         power_readings := readings }

/-- The `merge_intervals=False` loop of `find_intervals` (analyse.py lines
156-160): one `Interval` per unmerged sub-part, each starting where the
previous one ended (`start += duration`). -/
def emit_unmerged_intervals (data : List Row) :
    Int → List (Int × String) → Option (List Interval)
  | _, [] => some []
  | start, (durn, name) :: rest => do
    let iv ← mk_interval data start durn name
    let ivs ← emit_unmerged_intervals data (start + durn) rest
    pure (iv :: ivs)

/-- Model of `FileData = namedtuple('FileData', 'start_time, intervals')`
(analyse.py line 17). -/
structure FileData where
  start_time : Int
  intervals : List Interval
deriving DecidableEq

/-- The segment loop of `find_intervals` (analyse.py lines 110-161),
threading the (destructively consumed) trace buffer and the accumulated
result intervals.  A Recovery segment advances the buffer (AUTO duration
uses `find_effort_interval`, whose failing assert aborts); an Effort
segment runs `find_max_power_range` — a `None` result makes the next line
`start + interval_defn.duration` raise `TypeError`, modelled `none` —
then emits interval(s) and deletes the consumed prefix. -/
def find_intervals_go (merge_intervals : Bool)
    (recovery_duration interval_power effort_interval_detection_threshold
     longest_recovery_duration : Int) :
    List Row → List IntervalDefinition → List Interval → Option (List Interval)
  | _, [], acc => some acc
  | data, interval_defn :: rest, acc =>
    if interval_defn.interval_type = IntervalType.Recovery then do
      let next_interval_start ←
        if interval_defn.duration = -1 then
          (find_effort_interval data interval_power
            effort_interval_detection_threshold longest_recovery_duration).map
            (fun n => (n : Int))
        else
          pure interval_defn.duration
      let data_to_delete := max 0 (next_interval_start - effort_interval_detection_threshold)
      find_intervals_go merge_intervals recovery_duration interval_power
        effort_interval_detection_threshold longest_recovery_duration
        (pyDropFront data data_to_delete) rest acc
    else
      match find_max_power_range data interval_defn.duration
              (effort_interval_detection_threshold + recovery_duration) with
      | none => none
      | some none => none
      | some (some start) => do
        let interval_end : Int := (start : Int) + interval_defn.duration
        let new_intervals ←
          if merge_intervals then
            (mk_interval data (start : Int) interval_defn.duration
              interval_defn.name).map (fun iv => [iv])
          else
            emit_unmerged_intervals data (start : Int) interval_defn.unmerged_intervals
        find_intervals_go merge_intervals recovery_duration interval_power
          effort_interval_detection_threshold longest_recovery_duration
          (pyDropFront data interval_end) rest (acc ++ new_intervals)

/-- Model of `find_intervals` (analyse.py lines 101-162): reads the start time from
row 0 (raising on an empty buffer), walks the session's segments, and
returns `FileData(start_time, intervals)`. -/
def find_intervals (data : List Row) (session_defn : SessionDefinition)
    (merge_intervals : Bool)
    (recovery_duration interval_power effort_interval_detection_threshold
     longest_recovery_duration : Int) : Option FileData := do
  let start_time ← get_row_timestamp data 0
  let intervals ← find_intervals_go merge_intervals recovery_duration interval_power
    effort_interval_detection_threshold longest_recovery_duration data session_defn []
  pure { start_time := start_time, intervals := intervals }

/-- Model of `read_input_files` (analyse.py lines 401-421), abstracted over the
already-decoded traces (the `fitdecode` reader is out of scope): each
trace is processed by `find_intervals`; an exception escaping
`find_intervals` propagates and aborts the whole batch (there is no
try/except around the call).  The `if file_data:` falsy check never fires
because `FileData` is a non-empty namedtuple and hence always truthy; the
final `sys.exit()` on an empty result list is modelled as `none`. -/
def read_input_files (traces : List (List Row)) (session_defn : SessionDefinition)
    (merge_intervals : Bool)
    (recovery_duration interval_power effort_interval_detection_threshold
     longest_recovery_duration : Int) : Option (List FileData) := do
  let input_file_data ← mapOpt
    (fun data => find_intervals data session_defn merge_intervals recovery_duration
      interval_power effort_interval_detection_threshold longest_recovery_duration)
    traces
  if input_file_data.isEmpty then none else pure input_file_data

/-- Sum of the durations of an `unmerged_intervals` list (the measure used
by the spec's merge invariant; Python `sum(d for d, _ in parts)`). -/
def unmergedSum : List (Int × String) → Int
  | [] => 0
  | p :: rest => p.1 + unmergedSum rest

/-- The spec's merge invariant over a session: no two adjacent segments
share a type, and every segment's unmerged sub-part durations sum to its
total duration. -/
def sessionOk (s : SessionDefinition) : Prop :=
  List.Chain' (fun a b => a.interval_type ≠ b.interval_type) s ∧
    ∀ e ∈ s, unmergedSum e.unmerged_intervals = e.duration

/-- Replay of a whole sequence of `add_interval` calls on an initially
empty `SessionDefinition`. -/
def applyCalls (calls : List (Int × IntervalType × String)) : SessionDefinition :=
  calls.foldl (fun s c => add_interval s c.1 c.2.1 c.2.2) []

/-- Readings of the split intervals, concatenated in emission order: the
sub-part at the running offset contributes its own window's readings. -/
def unmerged_readings (data : List Row) :
    Int → List (Int × String) → Option (List PowerReading)
  | _, [] => some []
  | start, (durn, _) :: rest => do
    let a ← interval_power_readings data start (start + durn)
    let b ← unmerged_readings data (start + durn) rest
    pure (a ++ b)

/-- The value `sum_power_range` computes when no row of the slice lacks the
power key (`sum_power_range_eq_val`): the total of the (defaulted) powers
over the Python slice `data[start:start+durn]`. -/
def sum_power_range_val (data : List Row) (start durn : Int) : Int :=
  (pySlice data start (start + durn)).foldl (fun t r => t + r.power.getD 0) 0

/-- Pure form of one step of the `find_max_power_range` loop, over an
abstract candidate-sum function `s`. -/
def bestStep (s : Nat → Int) (st : Int × Option Nat) (j : Nat) : Int × Option Nat :=
  if st.1 < s j then (s j, some j) else st

/-- A trace row with both a power and a timestamp value. -/
def mkRow (p t : Int) : Row :=
  { power := some p, timestamp := some t }

/-- Concrete trace used for claim C1: powers 0, 1, 0, 100, 100. -/
def dC1 : List Row :=
  [mkRow 0 0, mkRow 1 1, mkRow 0 2, mkRow 100 3, mkRow 100 4]

/-- Concrete trace used for claim C4: a single high-power sample at the
very end of the buffer (powers 100, 300). -/
def dC4 : List Row :=
  [mkRow 100 0, mkRow 300 1]

/-- Concrete trace used for claim C7: powers 1..4 with timestamps 10..13. -/
def dC7 : List Row :=
  [mkRow 1 10, mkRow 2 11, mkRow 3 12, mkRow 4 13]

/-- Session plan used for claims C5/C10: an AUTO recovery placeholder
followed by a 2-sample effort. -/
def sdC : SessionDefinition :=
  [ { duration := -1, interval_type := IntervalType.Recovery, name := "Recovery",
      unmerged_intervals := [(-1, "Recovery")] },
    { duration := 2, interval_type := IntervalType.Effort, name := "Interval 1",
      unmerged_intervals := [(2, "Interval 1")] } ]

/-- A trace on which the AUTO boundary search must fail for threshold 250:
a single zero-power sample. -/
def badTrace : List Row := [mkRow 0 0]

/-- A trace on which the session `sdC` is detected successfully: four
samples at 300 W. -/
def goodTrace : List Row :=
  [mkRow 300 0, mkRow 300 1, mkRow 300 2, mkRow 300 3]

/-- The session `parse_reps` actually builds from the plan
`["20s", "20s"]`: four segments, the two efforts separated by implicit
AUTO recovery placeholders, with no merge. -/
def c8Session : SessionDefinition :=
  [ { duration := -1, interval_type := IntervalType.Recovery, name := "Recovery",
      unmerged_intervals := [(-1, "Recovery")] },
    { duration := 20, interval_type := IntervalType.Effort, name := "Interval 1",
      unmerged_intervals := [(20, "Interval 1")] },
    { duration := -1, interval_type := IntervalType.Recovery, name := "Recovery",
      unmerged_intervals := [(-1, "Recovery")] },
    { duration := 20, interval_type := IntervalType.Effort, name := "Interval 2",
      unmerged_intervals := [(20, "Interval 2")] } ]

/-- The session `parse_reps` actually builds from the plan
`["-10s", "20s", "-10s", "20s"]`: each explicit 10 s recovery is merged
with the implicit AUTO placeholder inserted just before it (duration
`-1 + 10 = 9`, name `Recovery/Recovery`). -/
def c9Session : SessionDefinition :=
  [ { duration := 9, interval_type := IntervalType.Recovery, name := "Recovery/Recovery",
      unmerged_intervals := [(-1, "Recovery"), (10, "Recovery")] },
    { duration := 20, interval_type := IntervalType.Effort, name := "Interval 1",
      unmerged_intervals := [(20, "Interval 1")] },
    { duration := 9, interval_type := IntervalType.Recovery, name := "Recovery/Recovery",
      unmerged_intervals := [(-1, "Recovery"), (10, "Recovery")] },
    { duration := 20, interval_type := IntervalType.Effort, name := "Interval 2",
      unmerged_intervals := [(20, "Interval 2")] } ]

/-! ## Theorems -/

theorem get_row_power_eq_rowPowerD (data : List Row) (i : Nat) (h : i < data.length) :
    get_row_power data (i : Int) = some (rowPowerD data i) := by
  have hg : data[i]? = some (data.get ⟨i, h⟩) := by
    simp [List.get?_eq_get h]
  unfold rowPowerD get_row_power pyGet
  simp [hg]

/-- C1 counterexample: with buffer powers `0,1,0,100,100`, window length
`L = 2` and search range `R = 3`, the code returns offset 2, which lies
outside the claim's candidate set `0 .. R - L = {0, 1}`; the two claimed
candidates are tied (sum 1 each), so under the claim the earliest offset 0
would have been returned. -/
theorem c1_counterexample :
    find_max_power_range dC1 2 3 = some (some 2) ∧
    ¬ ((2 : Nat) ≤ 3 - 2) ∧
    sum_power_range dC1 0 2 = some 1 ∧
    sum_power_range dC1 1 2 = some 1 := by decide

/-- C2 counterexample: on the empty buffer, index 0 is out of range and
`get_row_power` / `get_row_timestamp` raise an `IndexError` (modelled
`none`) instead of returning the claimed neutral default 0. -/
theorem c2_counterexample :
    get_row_power ([] : List Row) 0 = none ∧
    get_row_timestamp ([] : List Row) 0 = none ∧
    get_row_power ([] : List Row) 0 ≠ some 0 := by decide

/-- C2 amended: the per-sample lookups are key-safe, not index-safe — an
index at or beyond the buffer length fails (`IndexError`), while an
in-range row missing the field yields the dict-get default
(power 0 / time 0). -/
theorem c2_amended (data : List Row) (i : Int) :
    ((data.length : Int) ≤ i →
      get_row_power data i = none ∧ get_row_timestamp data i = none) ∧
    (∀ r, pyGet data i = some r →
      get_row_power data i = some (r.power.getD 0) ∧
      get_row_timestamp data i = some (r.timestamp.getD 0)) := by
  constructor
  · intro h
    have h0 : 0 ≤ i := le_trans (Int.ofNat_nonneg _) h
    have hn : data.get? i.toNat = none := by
      rw [List.get?_eq_none]
      omega
    constructor <;> simp [get_row_power, get_row_timestamp, pyGet, if_pos h0, hn] <;> omega
  · intro r hr
    constructor <;> simp [get_row_power, get_row_timestamp, hr]

/-- C2 witness: instance of `c2_amended` on a one-row buffer whose row has
no power/timestamp keys — index 0 yields the default 0, index 1 fails. -/
theorem c2_amended_witness :
    get_row_power [({ power := none, timestamp := none } : Row)] 0 = some 0 ∧
    get_row_power [({ power := none, timestamp := none } : Row)] 1 = none := by
  refine ⟨?_, ?_⟩
  · exact ((c2_amended [{ power := none, timestamp := none }] 0).2
      { power := none, timestamp := none } (by decide)).1
  · exact ((c2_amended [{ power := none, timestamp := none }] 1).1 (by decide)).1

/-- C4 counterexample: threshold 250, detection window 2, bound 2, buffer
powers `100, 300`.  The code matches at offset 1 even though only one
sample (a spike shorter than the detection window) lies in the clamped
window `[1, min(2, 3)) = [1, 2)`; the claim says such a spike never
produces a match. -/
theorem c4_counterexample :
    find_effort_interval dC4 250 2 2 = some 1 ∧
    dC4.length < 1 + 2 ∧
    get_row_power dC4 0 = some 100 ∧
    ¬ ((250 : Int) ≤ 100) := by decide

/-- C6 counterexample: merging the AUTO sentinel (-1) with a fixed 10 s
recovery yields duration `9 = 10 + (-1)` — the sentinel is combined
arithmetically, not absorbed — and merging two AUTO segments yields
duration -2, which is no longer the AUTO sentinel. -/
theorem c6_counterexample :
    add_interval (add_interval [] (-1) IntervalType.Recovery "Recovery") 10
        IntervalType.Recovery "Recovery" =
      [{ duration := 9, interval_type := IntervalType.Recovery,
         name := "Recovery/Recovery",
         unmerged_intervals := [(-1, "Recovery"), (10, "Recovery")] }] ∧
    add_interval (add_interval [] (-1) IntervalType.Recovery "Recovery") (-1)
        IntervalType.Recovery "Recovery" =
      [{ duration := -2, interval_type := IntervalType.Recovery,
         name := "Recovery/Recovery",
         unmerged_intervals := [(-1, "Recovery"), (-1, "Recovery")] }] ∧
    (9 : Int) = 10 + (-1) ∧
    (-2 : Int) ≠ -1 := by decide

/-- C6 amended: when `add_interval` merges a same-type segment, the new
duration is always the plain arithmetic sum `last.duration + duration`,
with the AUTO sentinel -1 participating as the integer -1 (AUTO merged
with fixed `d` gives `d - 1`; two AUTOs give -2). -/
theorem c6_amended (s : SessionDefinition) (last : IntervalDefinition) (d : Int)
    (t : IntervalType) (n : String) (hl : s.getLast? = some last)
    (ht : last.interval_type = t) :
    (add_interval s d t n).getLast? =
      some { duration := last.duration + d, interval_type := t,
             name := truncate_name (last.name ++ "/" ++ n),
             unmerged_intervals := last.unmerged_intervals ++ [(d, n)] } := by
  rw [add_interval, hl]
  simp [ht, List.getLast?_concat]

/-- C6 witness: instance of `c6_amended` merging an AUTO recovery with a
fixed 10 s recovery; the merged duration is `-1 + 10 = 9`. -/
theorem c6_amended_witness :
    (add_interval
        [{ duration := -1, interval_type := IntervalType.Recovery,
           name := "Recovery", unmerged_intervals := [(-1, "Recovery")] }]
        10 IntervalType.Recovery "Recovery").getLast? =
      some { duration := -1 + 10, interval_type := IntervalType.Recovery,
             name := truncate_name ("Recovery" ++ "/" ++ "Recovery"),
             unmerged_intervals := [((-1 : Int), "Recovery")] ++ [(10, "Recovery")] } :=
  c6_amended
    [{ duration := -1, interval_type := IntervalType.Recovery,
       name := "Recovery", unmerged_intervals := [(-1, "Recovery")] }]
    { duration := -1, interval_type := IntervalType.Recovery,
      name := "Recovery", unmerged_intervals := [(-1, "Recovery")] }
    10 IntervalType.Recovery "Recovery" (by decide) rfl

/-- C8 counterexample: for the plan `["20s", "20s"]` the two efforts do
not merge — `parse_reps` inserts an implicit AUTO recovery placeholder
before each effort, so the session has four segments and none of them is
the claimed merged 40 s effort with sub-parts
`[(20, Interval 1), (20, Interval 2)]`. -/
theorem c8_counterexample :
    parse_reps ["20s", "20s"] = some c8Session ∧
    c8Session.length = 4 ∧
    (∀ e ∈ c8Session, e.duration ≠ 40) ∧
    (∀ e ∈ c8Session,
      e.unmerged_intervals ≠ [((20 : Int), "Interval 1"), ((20 : Int), "Interval 2")]) := by
  decide

/-- C8 amended: the plan `["20s", "20s"]` yields four segments — AUTO
recovery, 20 s effort `Interval 1`, AUTO recovery, 20 s effort
`Interval 2` — with alternating types; each effort keeps a single
unmerged sub-part, so `merge_intervals=false` extraction emits exactly one
20-sample interval per effort. -/
theorem c8_amended :
    parse_reps ["20s", "20s"] = some c8Session ∧
    c8Session.map (fun e => e.interval_type) =
      [IntervalType.Recovery, IntervalType.Effort,
       IntervalType.Recovery, IntervalType.Effort] ∧
    (∀ e ∈ c8Session, e.interval_type = IntervalType.Effort →
      e.unmerged_intervals.length = 1) := by decide

/-- C9 counterexample: for the plan `["-10s", "20s", "-10s", "20s"]` each
explicit recovery merges with the implicit AUTO placeholder inserted
before it, so the recovery segments are merge results named
`Recovery/Recovery` (with two unmerged sub-parts), not unmerged segments
named `Recovery` as claimed. -/
theorem c9_counterexample :
    parse_reps ["-10s", "20s", "-10s", "20s"] = some c9Session ∧
    c9Session.map (fun e => e.name) =
      ["Recovery/Recovery", "Interval 1", "Recovery/Recovery", "Interval 2"] ∧
    c9Session.map (fun e => e.name) ≠
      ["Recovery", "Interval 1", "Recovery", "Interval 2"] ∧
    (c9Session.get? 0).map (fun e => e.unmerged_intervals.length) = some 2 := by
  decide

/-- C9 amended: the plan `["-10s", "20s", "-10s", "20s"]` yields exactly
four segments with alternating types Recovery, Effort, Recovery, Effort;
each recovery is the merge of the AUTO placeholder with the explicit 10 s
recovery (duration `-1 + 10 = 9`, name `Recovery/Recovery`, sub-parts
`[(-1, Recovery), (10, Recovery)]`), and the efforts are named
`Interval 1` and `Interval 2`. -/
theorem c9_amended :
    parse_reps ["-10s", "20s", "-10s", "20s"] = some c9Session ∧
    c9Session.length = 4 ∧
    c9Session.map (fun e => e.interval_type) =
      [IntervalType.Recovery, IntervalType.Effort,
       IntervalType.Recovery, IntervalType.Effort] := by decide

theorem unmergedSum_append (l : List (Int × String)) (p : Int × String) :
    unmergedSum (l ++ [p]) = unmergedSum l + p.1 := by
  induction l with
  | nil => simp [unmergedSum]
  | cons q l ih => simp [unmergedSum, ih]; ring

theorem sessionOk_add (s : SessionDefinition) (d : Int) (t : IntervalType)
    (n : String) (h : sessionOk s) : sessionOk (add_interval s d t n) := by
  rcases List.eq_nil_or_concat s with rfl | ⟨l, b, rfl⟩
  · constructor
    · simp [add_interval]
    · intro e he
      simp [add_interval] at he
      simp [he, unmergedSum]
  · simp only [List.concat_eq_append] at h ⊢
    obtain ⟨hchain, hsum⟩ := h
    simp only [add_interval, List.getLast?_concat]
    rw [List.chain'_append] at hchain
    obtain ⟨hcl, -, hrel⟩ := hchain
    by_cases hb : b.interval_type = t
    · rw [if_pos hb, List.dropLast_concat]
      constructor
      · rw [List.chain'_append]
        refine ⟨hcl, List.chain'_singleton _, ?_⟩
        intro x hx y hy
        simp at hy
        subst hy
        have := hrel x hx b (by simp)
        simpa [hb] using this
      · intro e he
        rcases List.mem_append.mp he with hel | her
        · exact hsum e (List.mem_append_left _ hel)
        · simp at her
          subst her
          have hbsum := hsum b (List.mem_append_right _ (by simp))
          simp [unmergedSum_append, hbsum]
    · rw [if_neg hb]
      constructor
      · rw [List.chain'_append]
        refine ⟨?_, List.chain'_singleton _, ?_⟩
        · rw [List.chain'_append]
          exact ⟨hcl, List.chain'_singleton _, hrel⟩
        · intro x hx y hy
          simp [List.getLast?_concat] at hx
          simp at hy
          subst hx
          subst hy
          simpa using hb
      · intro e he
        rcases List.mem_append.mp he with hel | her
        · exact hsum e hel
        · simp at her
          subst her
          simp [unmergedSum]

/-- C3: for every sequence of `add_interval` calls starting from the empty
session, the resulting interval list has no two adjacent entries of the
same type, and every entry's unmerged sub-part durations sum exactly to
its total duration (the AUTO sentinel -1 included, arithmetically). -/
theorem c3_merge_invariant (calls : List (Int × IntervalType × String)) :
    sessionOk (applyCalls calls) := by
  have step : ∀ (cs : List (Int × IntervalType × String)) (s : SessionDefinition),
      sessionOk s →
      sessionOk (cs.foldl (fun s c => add_interval s c.1 c.2.1 c.2.2) s) := by
    intro cs
    induction cs with
    | nil => intro s h; exact h
    | cons c cs ih =>
      intro s h
      exact ih _ (sessionOk_add _ _ _ _ h)
  exact step calls [] ⟨List.chain'_nil, by simp⟩

/-- C3 witness: the invariant holds for the concrete call sequence
AUTO-recovery, 10 s recovery (which merges), 20 s effort. -/
theorem c3_merge_invariant_witness :
    sessionOk (applyCalls
      [(-1, IntervalType.Recovery, "Recovery"),
       (10, IntervalType.Recovery, "Recovery"),
       (20, IntervalType.Effort, "Interval 1")]) :=
  c3_merge_invariant
    [(-1, IntervalType.Recovery, "Recovery"),
     (10, IntervalType.Recovery, "Recovery"),
     (20, IntervalType.Effort, "Interval 1")]

theorem find?_first {l : List Nat} {p : Nat → Bool} {a : Nat}
    (hp : l.Pairwise (· < ·)) (h : l.find? p = some a) :
    ∀ b ∈ l, b < a → p b = false := by
  induction l with
  | nil => cases h
  | cons x l ih =>
    rw [List.pairwise_cons] at hp
    cases hx : p x with
    | true =>
      simp [List.find?, hx] at h
      subst h
      intro b hb hba
      rcases List.mem_cons.mp hb with rfl | hbl
      · omega
      · exact absurd (hp.1 b hbl) (by omega)
    | false =>
      simp [List.find?, hx] at h
      intro b hb hba
      rcases List.mem_cons.mp hb with rfl | hbl
      · exact hx
      · exact ih hp.2 h b hbl hba

theorem find?_range_some {p : Nat → Bool} {n a : Nat}
    (h : (List.range n).find? p = some a) :
    a < n ∧ p a = true ∧ ∀ b < a, p b = false := by
  have ha : a < n := List.mem_range.mp (List.mem_of_find?_eq_some h)
  refine ⟨ha, List.find?_some h, ?_⟩
  intro b hb
  exact find?_first (List.pairwise_lt_range n) h b (List.mem_range.mpr (by omega)) hb

/-- C4 amended: `find_effort_interval` returns the first offset `s` in
`0 .. min(len(data), longestRecoveryBound) - 1` such that every sample of
the window clamped to the buffer end,
`[s, min(len(data), s + detectionWindow))`, has power at least the
threshold (and `none` when no offset in the bound qualifies).  Because the
window is clamped, a spike shorter than the detection window at the tail
of the buffer can produce a match (`c4_counterexample`). -/
theorem c4_amended (data : List Row)
    (interval_power interval_duration longest_recovery_duration : Int) :
    (∀ s, find_effort_interval data interval_power interval_duration
        longest_recovery_duration = some s →
      s < (min (data.length : Int) longest_recovery_duration).toNat ∧
      effort_window_ok data interval_power interval_duration s = true ∧
      ∀ t < s, effort_window_ok data interval_power interval_duration t = false) ∧
    (find_effort_interval data interval_power interval_duration
        longest_recovery_duration = none →
      ∀ s < (min (data.length : Int) longest_recovery_duration).toNat,
        effort_window_ok data interval_power interval_duration s = false) := by
  constructor
  · intro s hs
    exact find?_range_some hs
  · intro h s hs
    have := List.find?_eq_none.mp h s (List.mem_range.mpr hs)
    simpa using this

/-- C4 witness: instance of `c4_amended` on the trace `dC4` with threshold
250, window 2 and bound 2 — the returned offset 1 passes the clamped
window check while offset 0 fails it. -/
theorem c4_amended_witness :
    effort_window_ok dC4 250 2 1 = true ∧
    effort_window_ok dC4 250 2 0 = false := by
  refine ⟨?_, ?_⟩
  · exact ((c4_amended dC4 250 2 2).1 1 (by decide)).2.1
  · exact ((c4_amended dC4 250 2 2).1 1 (by decide)).2.2 0 (by decide)

theorem mapOpt_power_all_some {l : List Row} (h : ∀ r ∈ l, (r.power).isSome) :
    mapOpt (fun r => r.power) l = some (l.map fun r => r.power.getD 0) := by
  induction l with
  | nil => rfl
  | cons r l ih =>
    obtain ⟨v, hv⟩ := Option.isSome_iff_exists.mp (h r (by simp))
    rw [List.map_cons]
    simp only [mapOpt, hv, Option.bind_eq_bind, Option.some_bind,
      ih (fun x hx => h x (by simp [hx]))]
    simp [hv]

theorem sum_power_range_eq_val {data : List Row}
    (h : ∀ r ∈ data, (r.power).isSome) (start durn : Int) :
    sum_power_range data start durn = some (sum_power_range_val data start durn) := by
  have hs : ∀ r ∈ pySlice data start (start + durn), (r.power).isSome := by
    intro r hr
    exact h r (List.take_subset _ _ (List.drop_subset _ _ hr))
  rw [sum_power_range, mapOpt_power_all_some hs]
  simp [sum_power_range_val, List.foldl_map]

theorem fmpr_go_eq_foldl {data : List Row} {durn : Int}
    (h : ∀ r ∈ data, (r.power).isSome) (l : List Nat) (st : Int × Option Nat) :
    find_max_power_range_go data durn l st =
      some (l.foldl (bestStep fun j => sum_power_range_val data (j : Int) durn) st) := by
  induction l generalizing st with
  | nil => rfl
  | cons j l ih =>
    rw [find_max_power_range_go, sum_power_range_eq_val h]
    rw [List.foldl_cons]
    exact ih _

theorem bestFold_inv (s : Nat → Int) (n : Nat) :
    (((List.range n).foldl (bestStep s) (0, none)).2 = none ∧
       ((List.range n).foldl (bestStep s) (0, none)).1 = 0 ∧ ∀ j < n, s j ≤ 0) ∨
    (∃ o, ((List.range n).foldl (bestStep s) (0, none)).2 = some o ∧
       ((List.range n).foldl (bestStep s) (0, none)).1 = s o ∧ o < n ∧ 0 < s o ∧
       (∀ j < n, s j ≤ s o) ∧ ∀ j < o, s j < s o) := by
  induction n with
  | zero => left; simp
  | succ n ih =>
    rw [List.range_succ, List.foldl_append, List.foldl_cons, List.foldl_nil]
    rcases ih with ⟨h2, h1, hall⟩ | ⟨o, h2, h1, hlt, hpos, hall, hfirst⟩
    · by_cases hn : 0 < s n
      · right
        refine ⟨n, ?_, ?_, by omega, hn, ?_, ?_⟩
        · simp [bestStep, h1, hn]
        · simp [bestStep, h1, hn]
        · intro j hj
          rcases Nat.lt_succ_iff_lt_or_eq.mp hj with hj' | rfl
          · exact le_of_lt (lt_of_le_of_lt (hall j hj') hn)
          · exact le_refl _
        · intro j hj
          exact lt_of_le_of_lt (hall j hj) hn
      · left
        refine ⟨?_, ?_, ?_⟩
        · simp [bestStep, h1, hn, h2]
        · simp [bestStep, h1, hn]
        · intro j hj
          rcases Nat.lt_succ_iff_lt_or_eq.mp hj with hj' | rfl
          · exact hall j hj'
          · omega
    · by_cases hn : s o < s n
      · right
        refine ⟨n, ?_, ?_, by omega, by omega, ?_, ?_⟩
        · simp [bestStep, h1, hn]
        · simp [bestStep, h1, hn]
        · intro j hj
          rcases Nat.lt_succ_iff_lt_or_eq.mp hj with hj' | rfl
          · exact le_of_lt (lt_of_le_of_lt (hall j hj') hn)
          · exact le_refl _
        · intro j hj
          exact lt_of_le_of_lt (hall j hj) hn
      · right
        refine ⟨o, ?_, ?_, by omega, hpos, ?_, hfirst⟩
        · simp [bestStep, h1, hn, h2]
        · simp [bestStep, h1, hn]
        · intro j hj
          rcases Nat.lt_succ_iff_lt_or_eq.mp hj with hj' | rfl
          · exact hall j hj'
          · omega

/-- C1 amended: `find_max_power_range` evaluates the (buffer-clamped)
power sum over `[offset, offset + L)` for every candidate offset
`0 .. R - 1` — the full `range(search_range)`, not `0 .. R - L` — and,
provided some candidate has a strictly positive sum, returns the earliest
offset whose sum is maximal (strictly greater than every earlier
candidate's sum and at least every later one's); when every candidate sum
is non-positive it returns `None` instead of an offset. -/
theorem c1_amended (data : List Row) (L R : Int)
    (hp : ∀ r ∈ data, (r.power).isSome) :
    (find_max_power_range data L R = some none →
      ∀ j < R.toNat, sum_power_range_val data (j : Int) L ≤ 0) ∧
    (∀ o, find_max_power_range data L R = some (some o) →
      o < R.toNat ∧ 0 < sum_power_range_val data (o : Int) L ∧
      (∀ j < R.toNat,
        sum_power_range_val data (j : Int) L ≤ sum_power_range_val data (o : Int) L) ∧
      ∀ j < o,
        sum_power_range_val data (j : Int) L < sum_power_range_val data (o : Int) L) := by
  have hgo := @fmpr_go_eq_foldl data L hp (List.range R.toNat) (0, none)
  have hinv := bestFold_inv (fun j => sum_power_range_val data (j : Int) L) R.toNat
  rw [find_max_power_range, hgo, Option.map_some']
  constructor
  · intro h j hj
    rcases hinv with ⟨-, -, hall⟩ | ⟨o, h2, -, -, -, -, -⟩
    · exact hall j hj
    · rw [Option.some_inj.mp h] at h2
      cases h2
  · intro o h
    rcases hinv with ⟨h2, -, -⟩ | ⟨o', h2, -, hlt, hpos, hall, hfirst⟩
    · rw [Option.some_inj.mp h] at h2
      cases h2
    · have : o' = o := by
        rw [Option.some_inj.mp h] at h2
        exact (Option.some_inj.mp h2).symm
      subst this
      exact ⟨hlt, hpos, hall, hfirst⟩

/-- C1 witness: instance of `c1_amended` on the trace `dC1` (`L = 2`,
`R = 3`), where the returned offset 2 has a strictly positive sum
dominating candidate 0's sum. -/
theorem c1_amended_witness :
    0 < sum_power_range_val dC1 ((2 : Nat) : Int) 2 ∧
    sum_power_range_val dC1 ((0 : Nat) : Int) 2 ≤
      sum_power_range_val dC1 ((2 : Nat) : Int) 2 := by
  have h := (c1_amended dC1 2 3 (by decide)).2 2 (by decide)
  exact ⟨h.2.1, h.2.2.1 0 (by decide)⟩

theorem mapOpt_eq_none_of_mem {f : α → Option β} {l : List α} {a : α}
    (ha : a ∈ l) (hf : f a = none) : mapOpt f l = none := by
  induction l with
  | nil => cases ha
  | cons x l ih =>
    rcases List.mem_cons.mp ha with rfl | hmem
    · simp [mapOpt, hf]
    · cases hx : f x
      · simp [mapOpt, hx]
      · simp [mapOpt, hx, ih hmem]

/-- C5 counterexample: a two-trace batch in which the first trace makes the
AUTO boundary search fail (`BoundaryNotFound`): `read_input_files` returns
no result at all — the second trace, which on its own is processed
successfully, is not processed — contradicting the claim that the failure
is local to one trace. -/
theorem c5_counterexample :
    read_input_files [badTrace, goodTrace] sdC true 1 250 2 305 = none ∧
    (find_intervals goodTrace sdC true 1 250 2 305).isSome = true ∧
    find_intervals badTrace sdC true 1 250 2 305 = none := by decide

/-- C5 amended: the failed assertion of the AUTO boundary search
propagates out of `find_intervals` uncaught — `read_input_files` has no
per-trace exception handling, so one failing trace aborts the whole
batch; no remaining trace contributes a result. -/
theorem c5_amended (traces : List (List Row)) (session_defn : SessionDefinition)
    (merge_intervals : Bool)
    (recovery_duration interval_power effort_interval_detection_threshold
     longest_recovery_duration : Int) (bad : List Row)
    (hmem : bad ∈ traces)
    (hbad : find_intervals bad session_defn merge_intervals recovery_duration
      interval_power effort_interval_detection_threshold
      longest_recovery_duration = none) :
    read_input_files traces session_defn merge_intervals recovery_duration
      interval_power effort_interval_detection_threshold
      longest_recovery_duration = none := by
  rw [read_input_files, mapOpt_eq_none_of_mem hmem hbad]
  rfl

/-- C5 witness: instance of `c5_amended` on the concrete two-trace batch
of `c5_counterexample`. -/
theorem c5_amended_witness :
    read_input_files [badTrace, goodTrace] sdC true 1 250 2 305 = none :=
  c5_amended [badTrace, goodTrace] sdC true 1 250 2 305 badTrace
    (by decide) (by decide)

theorem mapOpt_power_zero {l : List Row} (h : ∀ r ∈ l, r.power = some 0) :
    mapOpt (fun r => r.power) l = some (l.map fun _ => (0 : Int)) := by
  induction l with
  | nil => rfl
  | cons r l ih =>
    rw [List.map_cons]
    simp [mapOpt, h r (by simp), ih (fun x hx => h x (by simp [hx]))]

theorem foldl_add_zero (l : List Row) (a : Int) :
    ((l.map fun _ => (0 : Int)).foldl (· + ·) a) = a := by
  induction l generalizing a with
  | nil => rfl
  | cons r l ih => simpa using ih a

theorem sum_power_range_zero {data : List Row}
    (hz : ∀ r ∈ data, r.power = some 0) (start durn : Int) :
    sum_power_range data start durn = some 0 := by
  have hs : ∀ r ∈ pySlice data start (start + durn), r.power = some 0 := fun r hr =>
    hz r (List.take_subset _ _ (List.drop_subset _ _ hr))
  rw [sum_power_range, mapOpt_power_zero hs, Option.map_some']
  rw [foldl_add_zero]

theorem fmpr_go_zero {data : List Row} {durn : Int}
    (hz : ∀ r ∈ data, r.power = some 0) (l : List Nat) :
    find_max_power_range_go data durn l (0, none) = some (0, none) := by
  induction l with
  | nil => rfl
  | cons j l ih =>
    rw [find_max_power_range_go, sum_power_range_zero hz]
    simpa using ih

theorem find_max_power_range_zero {data : List Row}
    (hz : ∀ r ∈ data, r.power = some 0) (L R : Int) :
    find_max_power_range data L R = some none := by
  rw [find_max_power_range, fmpr_go_zero hz]
  rfl

/-- C10: on a trace whose readings all have zero power (and on the empty
trace), every candidate window sum is 0, so `find_max_power_range` returns
`None` rather than an offset; `find_intervals` on a session whose first
segment is an effort then fails (the `None` makes
`start + interval_defn.duration` raise) instead of emitting an `Interval`
result. -/
theorem c10_zero_power (data : List Row) (L R : Int)
    (session_defn : SessionDefinition) (defn : IntervalDefinition)
    (merge_intervals : Bool)
    (recovery_duration interval_power effort_interval_detection_threshold
     longest_recovery_duration : Int)
    (hz : ∀ r ∈ data, r.power = some 0)
    (hhead : session_defn.head? = some defn)
    (heff : defn.interval_type = IntervalType.Effort) :
    find_max_power_range data L R = some none ∧
    find_intervals data session_defn merge_intervals recovery_duration
      interval_power effort_interval_detection_threshold
      longest_recovery_duration = none := by
  refine ⟨find_max_power_range_zero hz L R, ?_⟩
  cases session_defn with
  | nil => cases hhead
  | cons d rest =>
    have hd : d = defn := by
      simpa using hhead
    subst hd
    rw [find_intervals]
    cases data with
    | nil => rfl
    | cons r0 drest =>
      rw [find_intervals_go]
      have hrec : ¬ d.interval_type = IntervalType.Recovery := by
        rw [heff]
        simp
      rw [if_neg hrec]
      rw [find_max_power_range_zero hz]
      simp [get_row_timestamp, pyGet]

/-- C10 witness: instance of `c10_zero_power` on a one-sample zero-power
trace and a session consisting of a single 2-sample effort. -/
theorem c10_zero_power_witness :
    find_max_power_range [mkRow 0 0] 2 3 = some none ∧
    find_intervals [mkRow 0 0]
      [{ duration := 2, interval_type := IntervalType.Effort, name := "Interval 1",
         unmerged_intervals := [(2, "Interval 1")] }] true 1 250 2 305 = none :=
  c10_zero_power [mkRow 0 0] 2 3
    [{ duration := 2, interval_type := IntervalType.Effort, name := "Interval 1",
       unmerged_intervals := [(2, "Interval 1")] }]
    { duration := 2, interval_type := IntervalType.Effort, name := "Interval 1",
      unmerged_intervals := [(2, "Interval 1")] }
    true 1 250 2 305 (by decide) rfl rfl

theorem pyRangeI_append (s d₁ d₂ : Int) (h₁ : 0 ≤ d₁) (h₂ : 0 ≤ d₂) :
    pyRangeI s (s + d₁) ++ pyRangeI (s + d₁) (s + d₁ + d₂) =
      pyRangeI s (s + d₁ + d₂) := by
  unfold pyRangeI
  have e1 : s + d₁ - s = d₁ := by ring
  have e2 : s + d₁ + d₂ - (s + d₁) = d₂ := by ring
  have e3 : s + d₁ + d₂ - s = d₁ + d₂ := by ring
  rw [e1, e2, e3, Int.toNat_add h₁ h₂, List.range_add, List.map_append, List.map_map]
  congr 1
  apply List.map_congr_left
  intro k hk
  have h1n : ((d₁.toNat : Int)) = d₁ := Int.toNat_of_nonneg h₁
  simp only [Function.comp_apply]
  omega

theorem mapOpt_append (f : α → Option β) (l₁ l₂ : List α) :
    mapOpt f (l₁ ++ l₂) = (do
      let a ← mapOpt f l₁
      let b ← mapOpt f l₂
      pure (a ++ b)) := by
  induction l₁ with
  | nil => cases h2 : mapOpt f l₂ <;> simp [mapOpt, h2]
  | cons x l ih =>
    cases hx : f x with
    | none => simp [mapOpt, hx]
    | some b =>
      rw [List.cons_append]
      simp only [mapOpt, hx, Option.bind_eq_bind, Option.some_bind, ih]
      cases h1 : mapOpt f l <;> cases h2 : mapOpt f l₂ <;> simp [h1, h2]

theorem unmergedSum_nonneg {parts : List (Int × String)}
    (h : ∀ p ∈ parts, 0 ≤ p.1) : 0 ≤ unmergedSum parts := by
  induction parts with
  | nil => simp [unmergedSum]
  | cons p rest ih =>
    have hp := h p (by simp)
    have hr := ih fun q hq => h q (by simp [hq])
    simp only [unmergedSum]
    omega

theorem unmerged_readings_eq_merged (data : List Row)
    (parts : List (Int × String)) (start : Int) (h : ∀ p ∈ parts, 0 ≤ p.1) :
    unmerged_readings data start parts =
      interval_power_readings data start (start + unmergedSum parts) := by
  induction parts generalizing start with
  | nil =>
    have e : start + unmergedSum [] = start := by simp [unmergedSum]
    rw [unmerged_readings, e, interval_power_readings]
    have e2 : start - start = 0 := by ring
    rw [pyRangeI, e2]
    rfl
  | cons p rest ih =>
    obtain ⟨d, n⟩ := p
    have hd : (0 : Int) ≤ d := h (d, n) (by simp)
    have hS : 0 ≤ unmergedSum rest := unmergedSum_nonneg fun q hq => h q (by simp [hq])
    rw [unmerged_readings, ih (start + d) (fun q hq => h q (by simp [hq]))]
    have hsum : unmergedSum ((d, n) :: rest) = d + unmergedSum rest := rfl
    rw [hsum]
    simp only [interval_power_readings]
    rw [← mapOpt_append]
    have e : start + (d + unmergedSum rest) = start + d + unmergedSum rest := by ring
    rw [e, pyRangeI_append start d (unmergedSum rest) hd hS]

theorem mk_interval_readings {data : List Row} {start durn : Int} {name : String}
    {iv : Interval} (h : mk_interval data start durn name = some iv) :
    interval_power_readings data start (start + durn) = some iv.power_readings := by
  simp only [mk_interval, Option.bind_eq_bind, Option.bind_eq_some, Option.pure_def,
    Option.some.injEq] at h
  obtain ⟨tot, h1, powers, h2, maxP, h3, readings, h4, st, h5, en, h6, hiv⟩ := h
  subst hiv
  exact h4

theorem emit_unmerged_readings {data : List Row} {parts : List (Int × String)} :
    ∀ {start : Int} {ivs : List Interval},
      emit_unmerged_intervals data start parts = some ivs →
      unmerged_readings data start parts =
        some ((ivs.map Interval.power_readings).flatten) := by
  induction parts with
  | nil =>
    intro start ivs h
    simp only [emit_unmerged_intervals, Option.some.injEq] at h
    subst h
    simp [unmerged_readings]
  | cons p rest ih =>
    intro start ivs h
    obtain ⟨d, n⟩ := p
    simp only [emit_unmerged_intervals, Option.bind_eq_bind, Option.bind_eq_some,
      Option.pure_def, Option.some.injEq] at h
    obtain ⟨iv, hiv, tl, htl, rfl⟩ := h
    rw [unmerged_readings, mk_interval_readings hiv, ih htl]
    simp

/-- C7: for a located window and an effort segment whose unmerged
sub-parts (each of non-negative duration) tile the segment's duration, the
concatenation in order of the power readings of the intervals emitted with
`merge_intervals=false` is identical to the power readings of the single
interval emitted with `merge_intervals=true` for the same window. -/
theorem c7_split_merge_equiv (data : List Row) (start : Int)
    (parts : List (Int × String)) (D : Int) (name : String)
    (hpos : ∀ p ∈ parts, 0 ≤ p.1) (hD : D = unmergedSum parts)
    (ivs : List Interval)
    (hu : emit_unmerged_intervals data start parts = some ivs)
    (iv : Interval) (hm : mk_interval data start D name = some iv) :
    (ivs.map Interval.power_readings).flatten = iv.power_readings := by
  have h1 := emit_unmerged_readings hu
  have h2 := mk_interval_readings hm
  subst hD
  rw [unmerged_readings_eq_merged data parts start hpos] at h1
  rw [h1] at h2
  exact Option.some_inj.mp h2

/-- C7 witness: instance of `c7_split_merge_equiv` on the 4-sample trace
`dC7` (powers 1..4, timestamps 10..13) split as two 2-sample sub-parts:
the joined readings of the two split intervals equal the readings of the
single merged interval. -/
theorem c7_split_merge_equiv_witness :
    (([{ name := "a", start := 10, stop := 11, max_power := 2,
         power_readings := [PowerReading.mk 10 1, PowerReading.mk 11 2] },
       { name := "b", start := 12, stop := 13, max_power := 4,
         power_readings := [PowerReading.mk 12 3, PowerReading.mk 13 4] }] :
        List Interval).map Interval.power_readings).flatten =
      ({ name := "I", start := 10, stop := 13, max_power := 4,
         power_readings := [PowerReading.mk 10 1, PowerReading.mk 11 2,
                            PowerReading.mk 12 3, PowerReading.mk 13 4] } :
        Interval).power_readings :=
  c7_split_merge_equiv dC7 0 [(2, "a"), (2, "b")] 4 "I" (by decide) (by decide)
    [{ name := "a", start := 10, stop := 11, max_power := 2,
       power_readings := [PowerReading.mk 10 1, PowerReading.mk 11 2] },
     { name := "b", start := 12, stop := 13, max_power := 4,
       power_readings := [PowerReading.mk 12 3, PowerReading.mk 13 4] }]
    (by decide)
    { name := "I", start := 10, stop := 13, max_power := 4,
      power_readings := [PowerReading.mk 10 1, PowerReading.mk 11 2,
                         PowerReading.mk 12 3, PowerReading.mk 13 4] }
    (by decide)

end Analyse
